import Mathlib

/-!
Verification of the particle / graviton simulation in `main.py`.

The embedding is a direct translation of the source:

* Numbers are rationals (`ℚ`), standing for the exact arithmetic the Python
  code performs on its coordinates and forces.
* A Python list `[x, y]` of coordinates is a pair `ℚ × ℚ`.
* `Particle` and `Graviton` are structures with the same fields as the
  Python classes.  The `creator` back-reference of a graviton is the index
  of the creator in the particle list, and every graviton carries a `gid`
  (allocation number) standing for Python object identity; `is`-comparison
  of particles is index equality, and a graviton object is identified
  across frames by its `gid`.
* `math.hypot dx dy < r` (with `r = particle.size + graviton.size > 0`) is
  embedded by squaring both sides: `0 < r ∧ dx^2 + dy^2 < r^2`, which is
  equivalent because `hypot` is the non-negative Euclidean norm.
* The frame loop body of `main` is split into `particlePhase` (draw/update
  each particle and spawn its gravitons) and `gravitonPhase` (move, age,
  cull and collide the gravitons), composed in `stepFrame`.  Random draws
  of `random.random()` are passed in as explicit noise functions.
* For the aliasing behaviour of `Graviton.__init__` (`position.copy()`,
  `forces.copy()`) a small store model is used: cells indexed by natural
  numbers stand for Python list objects, and allocation returns a fresh
  cell index.

Rendering (`pygame` drawing, event polling, clock pacing) has no effect on
the simulation state and is not modelled.
-/

/-- `Configuration.SCREEN_RESOLUTION = [700, 700]`. -/
def SCREEN_RESOLUTION : ℚ × ℚ := (700, 700)

/-- `Configuration.PARTICLE_SIZE = 10`. -/
def PARTICLE_SIZE : ℚ := 10

/-- `Configuration.PARTICLE_SPAWN_OFFSET = 10`. -/
def PARTICLE_SPAWN_OFFSET : ℚ := 10

/-- `Configuration.FORCE_LIMIT = 2`. -/
def FORCE_LIMIT : ℚ := 2

/-- `Configuration.GRAVITON_SIZE = 1`. -/
def GRAVITON_SIZE : ℚ := 1

/-- `Configuration.GRAVITON_LIFE = 100` (an integer countdown). -/
def GRAVITON_LIFE : ℤ := 100

/-- `Configuration.GRAVITON_CREATION_COUNT = 30`. -/
def GRAVITON_CREATION_COUNT : ℕ := 30

/-- `Configuration.GRAVITON_FORCE_ADDITION_RANGE = 10`. -/
def GRAVITON_FORCE_ADDITION_RANGE : ℚ := 10

/-- `Configuration.GRAVITON_FORCE_APPLY_MULTIPLIER = -0.01`. -/
def GRAVITON_FORCE_APPLY_MULTIPLIER : ℚ := -1/100

/-- `Configuration.GRAVITON_COLOR_MULTIPLIER = 0.5`. -/
def GRAVITON_COLOR_MULTIPLIER : ℚ := 1/2

/-- A `Particle` of `main.py`: position, force vector, color, radius.
The random spawn position and random color are taken as given data. -/
structure Particle where
  position : ℚ × ℚ
  forces : ℚ × ℚ
  color : ℚ × ℚ × ℚ
  size : ℚ
deriving DecidableEq

/-- One axis `i` of the body of `Particle.apply_force`:
`projected = position[i] + forces[i] + force[i]`;
if `projected - size < 0 or projected + size > limits[i]` then
`forces[i] *= -1`; then `forces[i] += force[i]`.
Returns the new `forces[i]`. -/
def applyForceAxis (pos f g size limit : ℚ) : ℚ :=
  if pos + f + g - size < 0 ∨ pos + f + g + size > limit then -f + g else f + g

/-- `Particle.apply_force(force, limits)`: runs `applyForceAxis` on both
axes; mutates only `forces`. -/
def Particle.apply_force (p : Particle) (force limits : ℚ × ℚ) : Particle :=
  { p with forces :=
      (applyForceAxis p.position.1 p.forces.1 force.1 p.size limits.1,
       applyForceAxis p.position.2 p.forces.2 force.2 p.size limits.2) }

/-- One axis `i` of the body of `Particle.update`:
`forces[i] = max(min(forces[i], FORCE_LIMIT), -FORCE_LIMIT)`;
`projected = position[i] + forces[i]`;
if `projected - size < 0 or projected + size > limits[i]` then
`forces[i] *= -1`; then `position[i] += forces[i]`.
Returns `(new position[i], new forces[i])`. -/
def updateAxis (pos f size limit : ℚ) : ℚ × ℚ :=
  let fc := max (min f FORCE_LIMIT) (-FORCE_LIMIT)
  if pos + fc - size < 0 ∨ pos + fc + size > limit
  then (pos + -fc, -fc) else (pos + fc, fc)

/-- `Particle.update(limits)`: runs `updateAxis` on both axes. -/
def Particle.update (p : Particle) (limits : ℚ × ℚ) : Particle :=
  { p with
    position := ((updateAxis p.position.1 p.forces.1 p.size limits.1).1,
                 (updateAxis p.position.2 p.forces.2 p.size limits.2).1),
    forces := ((updateAxis p.position.1 p.forces.1 p.size limits.1).2,
               (updateAxis p.position.2 p.forces.2 p.size limits.2).2) }

/-- A `Graviton` of `main.py`.  `creator` is the index of the creating
particle in the particle list (Python compares the creator by `is`,
object identity; the particle list is never reordered, so the index is a
faithful identity).  `gid` is the graviton's own object identity, assigned
consecutively at creation. -/
structure Graviton where
  creator : ℕ
  gid : ℕ
  position : ℚ × ℚ
  forces : ℚ × ℚ
  color : ℚ × ℚ × ℚ
  size : ℚ
  life : ℤ
deriving DecidableEq

/-- `Graviton.__init__(creator, position, forces)` with the default
`size=GRAVITON_SIZE` and `life=GRAVITON_LIFE`.  `position.copy()` and
`forces.copy()` make the stored vectors value copies (the aliasing side of
this is modelled separately in the store model below). -/
def Graviton.init (creator : ℕ) (creatorP : Particle) (gid : ℕ)
    (position forces : ℚ × ℚ) : Graviton :=
  { creator := creator
    gid := gid
    position := position
    forces := forces
    color := (creatorP.color.1 * GRAVITON_COLOR_MULTIPLIER,
              creatorP.color.2.1 * GRAVITON_COLOR_MULTIPLIER,
              creatorP.color.2.2 * GRAVITON_COLOR_MULTIPLIER)
    size := GRAVITON_SIZE
    life := GRAVITON_LIFE }

/-- `Graviton.apply_force(force)`: add `force` componentwise to `forces`. -/
def Graviton.apply_force (g : Graviton) (force : ℚ × ℚ) : Graviton :=
  { g with forces := (g.forces.1 + force.1, g.forces.2 + force.2) }

/-- `Graviton.update(limits)`: add `forces` to `position`; `limits` is
accepted but unused. -/
def Graviton.update (g : Graviton) (_limits : ℚ × ℚ) : Graviton :=
  { g with position := (g.position.1 + g.forces.1, g.position.2 + g.forces.2) }

/-- The per-frame step of one graviton before its removal checks:
`graviton.update(resolution)` followed by `graviton.life -= 1`. -/
def stepGraviton (res : ℚ × ℚ) (g : Graviton) : Graviton :=
  let g' := g.update res
  { g' with life := g'.life - 1 }

/-- The removal condition tested in `main` right after a graviton's update
and life decrement:
`life <= 0 or position[0] < 0 or position[0] > resolution[0]
or position[1] < 0 or position[1] > resolution[1]`. -/
def expired (res : ℚ × ℚ) (g : Graviton) : Prop :=
  g.life ≤ 0 ∨ g.position.1 < 0 ∨ g.position.1 > res.1 ∨
    g.position.2 < 0 ∨ g.position.2 > res.2

instance expiredDecidable (res : ℚ × ℚ) (g : Graviton) :
    Decidable (expired res g) := by
  unfold expired; exact inferInstance

/-- The collision test of `main`:
`math.hypot(dx, dy) < particle.size + graviton.size`, embedded by squaring
both sides (`hypot` is the non-negative Euclidean norm, so for the
comparison to hold the right side must be positive and the squares must
compare the same way). -/
def collides (g : Graviton) (p : Particle) : Prop :=
  0 < p.size + g.size ∧
    (g.position.1 - p.position.1) ^ 2 + (g.position.2 - p.position.2) ^ 2 <
      (p.size + g.size) ^ 2

instance collidesDecidable (g : Graviton) (p : Particle) :
    Decidable (collides g p) := by
  unfold collides; exact inferInstance

/-- The inner collision loop of `main`, `for particle in particles:`,
carrying the index `i` of the current particle: the creator is skipped
(`if particle is graviton.creator: continue`), and the first other particle
within collision distance is returned. -/
def findHitAux (g : Graviton) : ℕ → List Particle → Option ℕ
  | _, [] => none
  | i, p :: ps =>
    if i = g.creator then findHitAux g (i + 1) ps
    else if collides g p then some i
    else findHitAux g (i + 1) ps

/-- First particle (by creation order) colliding with `g`, excluding the
creator. -/
def findHit (g : Graviton) (ps : List Particle) : Option ℕ :=
  findHitAux g 0 ps

/-- The impulse applied on a hit:
`[forces[0] * GRAVITON_FORCE_APPLY_MULTIPLIER,
  forces[1] * GRAVITON_FORCE_APPLY_MULTIPLIER]`. -/
def impulse (g : Graviton) : ℚ × ℚ :=
  (g.forces.1 * GRAVITON_FORCE_APPLY_MULTIPLIER,
   g.forces.2 * GRAVITON_FORCE_APPLY_MULTIPLIER)

/-- In-place mutation of the `j`-th particle of the list (Python's
`particle.apply_force(...)` on the element the loop variable aliases). -/
def modifyAt (f : Particle → Particle) : ℕ → List Particle → List Particle
  | _, [] => []
  | 0, p :: ps => f p :: ps
  | n + 1, p :: ps => p :: modifyAt f n ps

/-- Outcome of one graviton's turn in the graviton loop of `main`:
removed by the expiry check, removed by a first collision with particle
`j`, or retained for the next frame. -/
inductive GOutcome where
  | expiredOut : GOutcome
  | hit : ℕ → GOutcome
  | retained : GOutcome
deriving DecidableEq

/-- The decision taken for one graviton in the loop of `main`: after
`update` and the life decrement, the expiry check fires (`continue` after
removal), or the first colliding non-creator particle is hit (`break`
after removal), or the graviton stays. -/
def gravOutcome (res : ℚ × ℚ) (ps : List Particle) (g : Graviton) : GOutcome :=
  let g' := stepGraviton res g
  if expired res g' then .expiredOut
  else
    match findHit g' ps with
    | some j => .hit j
    | none => .retained

/-- The graviton loop of `main` (`for graviton in gravitons[:]:`): the list
is iterated in order over a snapshot; each graviton is drawn, updated and
aged, then either removed by the expiry check, removed by its first
collision (applying the impulse to that particle), or kept.  Returns the
final particle list and the retained gravitons in order. -/
def gravitonPhase (res : ℚ × ℚ) :
    List Particle → List Graviton → List Particle × List Graviton
  | ps, [] => (ps, [])
  | ps, g :: gs =>
    let g' := stepGraviton res g
    if expired res g' then gravitonPhase res ps gs
    else
      match findHit g' ps with
      | some j =>
          gravitonPhase res
            (modifyAt (fun p => p.apply_force (impulse g') res) j ps) gs
      | none =>
          let r := gravitonPhase res ps gs
          (r.1, g' :: r.2)

/-- The gravitons spawned by one particle right after its update in `main`:
`for _ in range(GRAVITON_CREATION_COUNT)`, each at a copy of the particle's
post-update position, with forces equal to the particle's post-update
forces plus `(random.random() - 0.5) * GRAVITON_FORCE_ADDITION_RANGE` per
axis.  `nf k` supplies the pair of `random.random()` draws of iteration
`k`; `gid0` is the next free object id. -/
def spawnGravitons (pi gid0 : ℕ) (p : Particle) (nf : ℕ → ℚ × ℚ) :
    List Graviton :=
  (List.range GRAVITON_CREATION_COUNT).map fun k =>
    Graviton.init pi p (gid0 + k) p.position
      (p.forces.1 + ((nf k).1 - 1/2) * GRAVITON_FORCE_ADDITION_RANGE,
       p.forces.2 + ((nf k).2 - 1/2) * GRAVITON_FORCE_ADDITION_RANGE)

/-- The particle loop of `main`: each particle is drawn, updated with the
screen resolution as limits, and spawns its gravitons, which are appended
to the graviton list in order.  `pi` is the index of the first particle of
`ps` in the full list, `gid0` the next free graviton id.  Returns the
updated particles, the newly spawned gravitons in append order, and the
next free id. -/
def particlePhase (limits : ℚ × ℚ) (nf : ℕ → ℕ → ℚ × ℚ) :
    ℕ → ℕ → List Particle → List Particle × List Graviton × ℕ
  | _, gid0, [] => ([], [], gid0)
  | pi, gid0, p :: ps =>
    let p' := p.update limits
    let spawned := spawnGravitons pi gid0 p' (nf pi)
    let r := particlePhase limits nf (pi + 1) (gid0 + GRAVITON_CREATION_COUNT) ps
    (p' :: r.1, spawned ++ r.2.1, r.2.2)

/-- The mutable state of `main`'s loop: the particle list, the active
graviton list, and the next free graviton object id. -/
structure SimState where
  particles : List Particle
  gravitons : List Graviton
  nextGid : ℕ

/-- One iteration of the `while running` loop of `main` (the simulation
part; drawing and event polling do not touch this state): the particle
phase runs first, appending all newly spawned gravitons to the list, and
only then is the graviton list snapshotted and processed. -/
def stepFrame (nf : ℕ → ℕ → ℚ × ℚ) (s : SimState) : SimState :=
  let pr := particlePhase SCREEN_RESOLUTION nf 0 s.nextGid s.particles
  let gr := gravitonPhase SCREEN_RESOLUTION pr.1 (s.gravitons ++ pr.2.1)
  { particles := gr.1, gravitons := gr.2, nextGid := pr.2.2 }

/-- `n` consecutive frames; `nfs t` is the noise of frame `t`. -/
def stepFrames (nfs : ℕ → ℕ → ℕ → ℚ × ℚ) : ℕ → SimState → SimState
  | 0, s => s
  | n + 1, s => stepFrames (fun t => nfs (t + 1)) n (stepFrame (nfs 0) s)

/-- Well-formedness of a simulation state, maintained by `stepFrame` and
true of the initial state (whose graviton list is empty): every active
graviton has an already-allocated id, a strictly positive life, and a life
of at most `GRAVITON_LIFE`. -/
def WF (s : SimState) : Prop :=
  ∀ g ∈ s.gravitons, g.gid < s.nextGid ∧ 1 ≤ g.life ∧ g.life ≤ GRAVITON_LIFE

/-- A call performed on a particle by the simulation: `update(resolution)`
or `apply_force(force, resolution)` with an arbitrary force vector. -/
inductive ParticleOp where
  | update : ParticleOp
  | applyForce : ℚ × ℚ → ParticleOp

/-- Run a sequence of particle calls with fixed limits. -/
def runOps (limits : ℚ × ℚ) : List ParticleOp → Particle → Particle
  | [], p => p
  | .update :: ops, p => runOps limits ops (p.update limits)
  | .applyForce f :: ops, p => runOps limits ops (p.apply_force f limits)

/-- Position bounds of a particle inside the arena: within
`[size, resolution_dim - size]` on each axis, at the configured particle
size. -/
def inBounds (p : Particle) : Prop :=
  PARTICLE_SIZE ≤ p.position.1 ∧
    p.position.1 ≤ SCREEN_RESOLUTION.1 - PARTICLE_SIZE ∧
    PARTICLE_SIZE ≤ p.position.2 ∧
    p.position.2 ≤ SCREEN_RESOLUTION.2 - PARTICLE_SIZE

/-- The position-and-size data of a particle, the only part of a particle
the collision test and the expiry test read. -/
def posSize (p : Particle) : (ℚ × ℚ) × ℚ :=
  (p.position, p.size)

/-- A store of 2-vector cells.  A cell index models the identity of a
Python list object `[x, y]`; `next` is the next fresh index. -/
structure Store where
  cells : ℕ → ℚ × ℚ
  next : ℕ

/-- Read the list object behind reference `r`. -/
def Store.read (s : Store) (r : ℕ) : ℚ × ℚ :=
  s.cells r

/-- Overwrite the contents of the list object behind reference `r` (an
in-place mutation such as `forces[i] += ...`). -/
def Store.write (s : Store) (r : ℕ) (v : ℚ × ℚ) : Store :=
  { s with cells := fun i => if i = r then v else s.cells i }

/-- Allocate a fresh list object with contents `v`. -/
def Store.alloc (s : Store) (v : ℚ × ℚ) : ℕ × Store :=
  (s.next,
   { cells := fun i => if i = s.next then v else s.cells i,
     next := s.next + 1 })

/-- The aliasing behaviour of `Graviton.__init__`:
`self.position = position.copy()` and `self.forces = forces.copy()` each
allocate a fresh list object holding the same values as the argument.
Given the references of the vectors passed in (in `main`, the particle's
freshly-copied position and the fresh noise list), returns the references
stored in the graviton and the new store. -/
def gravitonInitRefs (s : Store) (posRef forcesRef : ℕ) : (ℕ × ℕ) × Store :=
  let a1 := s.alloc (s.read posRef)
  let a2 := a1.2.alloc (a1.2.read forcesRef)
  ((a1.1, a2.1), a2.2)


/-- A sample particle at rest in the middle of the arena, used in the
concrete instantiations below. -/
def sampleParticle : Particle :=
  Particle.mk (350, 350) (0, 0) (0, 0, 0) 10

/-- Sample noise: every `random.random()` draw returns `1/2`, i.e. zero
spawn noise. -/
def sampleNoise : ℕ → ℕ → ℚ × ℚ :=
  fun _ _ => (1/2, 1/2)

/-- Sample one-particle initial state with no active gravitons. -/
def sampleState : SimState :=
  SimState.mk [sampleParticle] [] 0

/-- The first graviton spawned from `sampleParticle` under `sampleNoise`
(the `k = 0` element of its spawn loop). -/
def sampleSpawned : Graviton :=
  Graviton.init 0 (sampleParticle.update SCREEN_RESOLUTION) (0 + 0)
    (sampleParticle.update SCREEN_RESOLUTION).position
    ((sampleParticle.update SCREEN_RESOLUTION).forces.1 +
       ((sampleNoise 0 0).1 - 1/2) * GRAVITON_FORCE_ADDITION_RANGE,
     (sampleParticle.update SCREEN_RESOLUTION).forces.2 +
       ((sampleNoise 0 0).2 - 1/2) * GRAVITON_FORCE_ADDITION_RANGE)

/-! ### Basic facts about the particle operations -/

lemma inBounds_iff (p : Particle) :
    inBounds p ↔
      10 ≤ p.position.1 ∧ p.position.1 ≤ 690 ∧
        10 ≤ p.position.2 ∧ p.position.2 ≤ 690 := by
  unfold inBounds PARTICLE_SIZE SCREEN_RESOLUTION
  norm_num

lemma updateAxis_pos_bounds (pos f : ℚ) (h1 : 10 ≤ pos) (h2 : pos ≤ 690) :
    10 ≤ (updateAxis pos f 10 700).1 ∧ (updateAxis pos f 10 700).1 ≤ 690 := by
  have hL : FORCE_LIMIT = 2 := rfl
  simp only [updateAxis]
  set fc := max (min f FORCE_LIMIT) (-FORCE_LIMIT) with hfc
  have hc1 : -FORCE_LIMIT ≤ fc := le_max_right _ _
  have hc2 : fc ≤ FORCE_LIMIT := max_le (min_le_right _ _) (by rw [hL]; norm_num)
  split_ifs with h
  · rcases h with h | h
    · constructor
      · show (10 : ℚ) ≤ pos + -fc
        rw [hL] at hc1 hc2; linarith
      · show pos + -fc ≤ (690 : ℚ)
        rw [hL] at hc1 hc2; linarith
    · constructor
      · show (10 : ℚ) ≤ pos + -fc
        rw [hL] at hc1 hc2; linarith
      · show pos + -fc ≤ (690 : ℚ)
        rw [hL] at hc1 hc2; linarith
  · push_neg at h
    constructor
    · show (10 : ℚ) ≤ pos + fc
      linarith [h.1]
    · show pos + fc ≤ (690 : ℚ)
      linarith [h.2]

lemma updateAxis_force_abs (pos f size limit : ℚ) :
    |(updateAxis pos f size limit).2| ≤ FORCE_LIMIT := by
  have hL : FORCE_LIMIT = 2 := rfl
  simp only [updateAxis]
  set fc := max (min f FORCE_LIMIT) (-FORCE_LIMIT) with hfc
  have hc1 : -FORCE_LIMIT ≤ fc := le_max_right _ _
  have hc2 : fc ≤ FORCE_LIMIT := max_le (min_le_right _ _) (by rw [hL]; norm_num)
  split_ifs with h
  · show |(-fc)| ≤ FORCE_LIMIT
    rw [abs_neg]
    exact abs_le.mpr ⟨hc1, hc2⟩
  · show |fc| ≤ FORCE_LIMIT
    exact abs_le.mpr ⟨hc1, hc2⟩

lemma applyForceAxis_abs (pos f g size limit : ℚ) :
    |applyForceAxis pos f g size limit| ≤ |f| + |g| := by
  unfold applyForceAxis
  split_ifs with h
  · calc |(-f) + g| ≤ |(-f)| + |g| := abs_add _ _
      _ = |f| + |g| := by rw [abs_neg]
  · exact abs_add _ _

/-- C1: for every particle whose position starts within
`[size, resolution_dim - size]` on each axis (as the spawn zone
guarantees, since `PARTICLE_SPAWN_OFFSET = PARTICLE_SIZE`), and for every
finite sequence of `Particle.update` and `Particle.apply_force` calls with
arbitrary applied force vectors, the position stays within
`[size, resolution_dim - size]` on both axes after every call (every
prefix of a call sequence being itself such a sequence). -/
theorem c1_position_invariant (p : Particle) (ops : List ParticleOp)
    (hsize : p.size = PARTICLE_SIZE) (hp : inBounds p) :
    inBounds (runOps SCREEN_RESOLUTION ops p) := by
  induction ops generalizing p with
  | nil => exact hp
  | cons op ops ih =>
    cases op with
    | update =>
      simp only [runOps]
      apply ih
      · exact hsize
      · obtain ⟨ha, hb, hc, hd⟩ := (inBounds_iff p).mp hp
        have hs10 : p.size = 10 := hsize
        have h1 := updateAxis_pos_bounds p.position.1 p.forces.1 ha hb
        have h2 := updateAxis_pos_bounds p.position.2 p.forces.2 hc hd
        apply (inBounds_iff _).mpr
        simp only [Particle.update, hs10, SCREEN_RESOLUTION]
        exact ⟨h1.1, h1.2, h2.1, h2.2⟩
    | applyForce f =>
      simp only [runOps]
      apply ih
      · exact hsize
      · exact hp

/-- Witness for C1 at a concrete particle and call sequence. -/
theorem c1_position_invariant_witness :
    (Particle.mk (350, 350) (0, 0) (0, 0, 0) 10).size = PARTICLE_SIZE ∧
    inBounds (Particle.mk (350, 350) (0, 0) (0, 0, 0) 10) ∧
    inBounds (runOps SCREEN_RESOLUTION
      [ParticleOp.update, ParticleOp.applyForce (100, -100), ParticleOp.update]
      (Particle.mk (350, 350) (0, 0) (0, 0, 0) 10)) := by
  have h1 : (Particle.mk ((350 : ℚ), 350) (0, 0) (0, 0, 0) 10).size = PARTICLE_SIZE := rfl
  have h2 : inBounds (Particle.mk ((350 : ℚ), 350) (0, 0) (0, 0, 0) 10) := by
    rw [inBounds_iff]; norm_num
  exact ⟨h1, h2, c1_position_invariant _ _ h1 h2⟩

/-- C2: immediately after `Particle.update` returns,
`|forces[axis]| <= FORCE_LIMIT` holds on both axes, for every particle,
every prior force value and every limits vector: the clamp runs before the
reflection negation, and negation preserves magnitude. -/
theorem c2_update_clamps_forces (p : Particle) (limits : ℚ × ℚ) :
    |(p.update limits).forces.1| ≤ FORCE_LIMIT ∧
      |(p.update limits).forces.2| ≤ FORCE_LIMIT :=
  ⟨updateAxis_force_abs _ _ _ _, updateAxis_force_abs _ _ _ _⟩

/-- Witness for C2 at a concrete particle. -/
theorem c2_update_clamps_forces_witness :
    |((Particle.mk (350, 350) (9, -9) (0, 0, 0) 10).update
        SCREEN_RESOLUTION).forces.1| ≤ FORCE_LIMIT ∧
      |((Particle.mk (350, 350) (9, -9) (0, 0, 0) 10).update
          SCREEN_RESOLUTION).forces.2| ≤ FORCE_LIMIT :=
  c2_update_clamps_forces (Particle.mk (350, 350) (9, -9) (0, 0, 0) 10)
    SCREEN_RESOLUTION

/-- C3: `Particle.apply_force` computes, per axis,
`projected = position + forces + force`; when `projected - size < 0` or
`projected + size > limits`, it negates `forces` before adding `force`,
and it adds `force` unconditionally; the position is never changed.  In
particular a particle at `position = [5, 350]` with `size = 10` and
x-force below `4` receiving `apply_force([1, 0], [700, 700])` gets its
x-force negated before the addition of `1`. -/
theorem c3_apply_force_spec :
    (∀ (p : Particle) (force limits : ℚ × ℚ),
      (p.apply_force force limits).position = p.position ∧
      (p.apply_force force limits).size = p.size ∧
      (p.apply_force force limits).forces.1 =
        (if p.position.1 + p.forces.1 + force.1 - p.size < 0 ∨
            p.position.1 + p.forces.1 + force.1 + p.size > limits.1
         then -p.forces.1 else p.forces.1) + force.1 ∧
      (p.apply_force force limits).forces.2 =
        (if p.position.2 + p.forces.2 + force.2 - p.size < 0 ∨
            p.position.2 + p.forces.2 + force.2 + p.size > limits.2
         then -p.forces.2 else p.forces.2) + force.2) ∧
    (∀ (c : ℚ × ℚ × ℚ) (fx fy : ℚ), fx < 4 →
      ((Particle.mk (5, 350) (fx, fy) c 10).apply_force
          (1, 0) (700, 700)).forces.1 = -fx + 1) := by
  constructor
  · intro p force limits
    refine ⟨rfl, rfl, ?_, ?_⟩
    · show applyForceAxis p.position.1 p.forces.1 force.1 p.size limits.1 = _
      unfold applyForceAxis
      split_ifs with h <;> rfl
    · show applyForceAxis p.position.2 p.forces.2 force.2 p.size limits.2 = _
      unfold applyForceAxis
      split_ifs with h <;> rfl
  · intro c fx fy hfx
    show applyForceAxis 5 fx 1 10 700 = -fx + 1
    unfold applyForceAxis
    rw [if_pos]
    left
    linarith

/-- Witness for C3 at a concrete x-force below 4. -/
theorem c3_apply_force_spec_witness :
    ((Particle.mk (5, 350) ((3 : ℚ), 0) (0, 0, 0) 10).apply_force
        (1, 0) (700, 700)).forces.1 = -3 + 1 :=
  c3_apply_force_spec.2 (0, 0, 0) 3 0 (by norm_num)

/-- C8, counterexample: the per-axis force magnitude is not bounded by
`FORCE_LIMIT` at every point of the simulation.  A particle with
post-update forces `[2, 0]` (legal: `|2| ≤ FORCE_LIMIT`) away from the
walls that receives the collision impulse `[1/20, 0]` (the impulse of a
graviton with forces `[-5, 0]`, since `-5 * (-0.01) = 1/20`) ends with
x-force `2 + 1/20 > FORCE_LIMIT`. -/
theorem c8_force_bound_counterexample :
    FORCE_LIMIT <
      ((Particle.mk (350, 350) (2, 0) (0, 0, 0) 10).apply_force
          (1/20, 0) SCREEN_RESOLUTION).forces.1 := by
  show FORCE_LIMIT < applyForceAxis 350 2 (1/20) 10 700
  unfold applyForceAxis FORCE_LIMIT
  rw [if_neg]
  · norm_num
  · norm_num

/-- C8, amended: the force bound `|forces[axis]| ≤ FORCE_LIMIT` holds
immediately after every `Particle.update`; `Particle.apply_force` does not
re-clamp, and can only grow the magnitude by the applied force's
magnitude (`|forces'| ≤ |forces| + |force|` per axis), so between a
collision impulse and the next update the bound may be exceeded
transiently. -/
theorem c8_force_bound_amended :
    (∀ (p : Particle) (limits : ℚ × ℚ),
      |(p.update limits).forces.1| ≤ FORCE_LIMIT ∧
        |(p.update limits).forces.2| ≤ FORCE_LIMIT) ∧
    (∀ (p : Particle) (force limits : ℚ × ℚ),
      |(p.apply_force force limits).forces.1| ≤ |p.forces.1| + |force.1| ∧
        |(p.apply_force force limits).forces.2| ≤ |p.forces.2| + |force.2|) := by
  constructor
  · intro p limits
    exact ⟨updateAxis_force_abs _ _ _ _, updateAxis_force_abs _ _ _ _⟩
  · intro p force limits
    exact ⟨applyForceAxis_abs _ _ _ _ _, applyForceAxis_abs _ _ _ _ _⟩

/-! ### Structural lemmas for the graviton phase -/

lemma gravitonPhase_cons_expired (res : ℚ × ℚ) (ps : List Particle)
    (g : Graviton) (gs : List Graviton)
    (h : expired res (stepGraviton res g)) :
    gravitonPhase res ps (g :: gs) = gravitonPhase res ps gs := by
  simp only [gravitonPhase]
  rw [if_pos h]

lemma gravitonPhase_cons_hit (res : ℚ × ℚ) (ps : List Particle)
    (g : Graviton) (gs : List Graviton) (j : ℕ)
    (h1 : ¬ expired res (stepGraviton res g))
    (h2 : findHit (stepGraviton res g) ps = some j) :
    gravitonPhase res ps (g :: gs) =
      gravitonPhase res
        (modifyAt (fun p => p.apply_force (impulse (stepGraviton res g)) res)
          j ps) gs := by
  simp only [gravitonPhase]
  rw [if_neg h1, h2]

lemma gravitonPhase_cons_retained (res : ℚ × ℚ) (ps : List Particle)
    (g : Graviton) (gs : List Graviton)
    (h1 : ¬ expired res (stepGraviton res g))
    (h2 : findHit (stepGraviton res g) ps = none) :
    gravitonPhase res ps (g :: gs) =
      ((gravitonPhase res ps gs).1,
        stepGraviton res g :: (gravitonPhase res ps gs).2) := by
  simp only [gravitonPhase]
  rw [if_neg h1, h2]

lemma modifyAt_map_posSize (f : Particle → Particle)
    (hf : ∀ p, posSize (f p) = posSize p) (j : ℕ) (ps : List Particle) :
    (modifyAt f j ps).map posSize = ps.map posSize := by
  induction ps generalizing j with
  | nil => cases j <;> rfl
  | cons p ps ih =>
    cases j with
    | zero => simp [modifyAt, hf p]
    | succ n => simp [modifyAt, ih n]

lemma modifyAt_get? (f : Particle → Particle) (j k : ℕ) (ps : List Particle) :
    (modifyAt f j ps).get? k =
      if k = j then (ps.get? j).map f else ps.get? k := by
  induction ps generalizing j k with
  | nil => cases j <;> cases k <;> simp [modifyAt]
  | cons p ps ih =>
    cases j with
    | zero =>
      cases k with
      | zero => simp [modifyAt]
      | succ k => simp [modifyAt]
    | succ j =>
      cases k with
      | zero => simp [modifyAt]
      | succ k => simpa [modifyAt] using ih j k

lemma collides_congr (g : Graviton) (p q : Particle)
    (h : posSize p = posSize q) : collides g p ↔ collides g q := by
  have hp : p.position = q.position := congrArg Prod.fst h
  have hs : p.size = q.size := congrArg Prod.snd h
  unfold collides
  rw [hp, hs]

lemma findHitAux_congr (g : Graviton) (ps qs : List Particle) (i : ℕ)
    (h : ps.map posSize = qs.map posSize) :
    findHitAux g i ps = findHitAux g i qs := by
  induction ps generalizing i qs with
  | nil =>
    cases qs with
    | nil => rfl
    | cons q qs => simp at h
  | cons p ps ih =>
    cases qs with
    | nil => simp at h
    | cons q qs =>
      simp only [List.map_cons, List.cons.injEq] at h
      obtain ⟨h1, h2⟩ := h
      simp only [findHitAux]
      by_cases hc : i = g.creator
      · rw [if_pos hc, if_pos hc]
        exact ih qs (i + 1) h2
      · rw [if_neg hc, if_neg hc]
        by_cases hcol : collides g p
        · rw [if_pos hcol, if_pos ((collides_congr g p q h1).mp hcol)]
        · rw [if_neg hcol,
            if_neg (fun hq => hcol ((collides_congr g p q h1).mpr hq))]
          exact ih qs (i + 1) h2

lemma gravitonPhase_map_posSize (res : ℚ × ℚ) (gs : List Graviton)
    (ps : List Particle) :
    ((gravitonPhase res ps gs).1).map posSize = ps.map posSize := by
  induction gs generalizing ps with
  | nil => rfl
  | cons g gs ih =>
    by_cases h1 : expired res (stepGraviton res g)
    · rw [gravitonPhase_cons_expired res ps g gs h1]
      exact ih ps
    · cases h2 : findHit (stepGraviton res g) ps with
      | some j =>
        rw [gravitonPhase_cons_hit res ps g gs j h1 h2, ih _,
          modifyAt_map_posSize
            (fun p => p.apply_force (impulse (stepGraviton res g)) res)
            (fun p => rfl) j ps]
      | none =>
        rw [gravitonPhase_cons_retained res ps g gs h1 h2]
        exact ih ps

lemma gravitonPhase_retained_mem (res : ℚ × ℚ) (gs : List Graviton)
    (ps : List Particle) (g : Graviton) (hg : g ∈ gs)
    (h1 : ¬ expired res (stepGraviton res g))
    (h2 : findHit (stepGraviton res g) ps = none) :
    stepGraviton res g ∈ (gravitonPhase res ps gs).2 := by
  induction gs generalizing ps with
  | nil => cases hg
  | cons g0 gs ih =>
    rcases List.mem_cons.mp hg with rfl | hg'
    · rw [gravitonPhase_cons_retained res ps g gs h1 h2]
      exact List.mem_cons_self _ _
    · by_cases e1 : expired res (stepGraviton res g0)
      · rw [gravitonPhase_cons_expired res ps g0 gs e1]
        exact ih ps hg' h2
      · cases e2 : findHit (stepGraviton res g0) ps with
        | some j =>
          rw [gravitonPhase_cons_hit res ps g0 gs j e1 e2]
          apply ih _ hg'
          show findHitAux (stepGraviton res g) 0 _ = none
          rw [findHitAux_congr _ _ ps 0
            (modifyAt_map_posSize
              (fun p => p.apply_force (impulse (stepGraviton res g0)) res)
              (fun p => rfl) j ps)]
          exact h2
        | none =>
          rw [gravitonPhase_cons_retained res ps g0 gs e1 e2]
          exact List.mem_cons_of_mem _ (ih ps hg' h2)

lemma gravitonPhase_mem (res : ℚ × ℚ) (gs : List Graviton)
    (ps : List Particle) (g' : Graviton)
    (hg' : g' ∈ (gravitonPhase res ps gs).2) :
    ∃ g ∈ gs, g' = stepGraviton res g ∧ ¬ expired res g' := by
  induction gs generalizing ps with
  | nil => cases hg'
  | cons g0 gs ih =>
    by_cases e1 : expired res (stepGraviton res g0)
    · rw [gravitonPhase_cons_expired res ps g0 gs e1] at hg'
      obtain ⟨g, hmem, hrest⟩ := ih ps hg'
      exact ⟨g, List.mem_cons_of_mem _ hmem, hrest⟩
    · cases e2 : findHit (stepGraviton res g0) ps with
      | some j =>
        rw [gravitonPhase_cons_hit res ps g0 gs j e1 e2] at hg'
        obtain ⟨g, hmem, hrest⟩ := ih _ hg'
        exact ⟨g, List.mem_cons_of_mem _ hmem, hrest⟩
      | none =>
        rw [gravitonPhase_cons_retained res ps g0 gs e1 e2] at hg'
        rcases List.mem_cons.mp hg' with rfl | hmem
        · exact ⟨g0, List.mem_cons_self _ _, rfl, e1⟩
        · obtain ⟨g, hmem', hrest⟩ := ih ps hmem
          exact ⟨g, List.mem_cons_of_mem _ hmem', hrest⟩

/-! ### The first-hit search and the spawning phase -/

lemma stepGraviton_gid (res : ℚ × ℚ) (g : Graviton) :
    (stepGraviton res g).gid = g.gid := rfl

lemma stepGraviton_life (res : ℚ × ℚ) (g : Graviton) :
    (stepGraviton res g).life = g.life - 1 := rfl

lemma stepGraviton_position (res : ℚ × ℚ) (g : Graviton) :
    (stepGraviton res g).position =
      (g.position.1 + g.forces.1, g.position.2 + g.forces.2) := rfl

lemma stepGraviton_forces (res : ℚ × ℚ) (g : Graviton) :
    (stepGraviton res g).forces = g.forces := rfl

lemma findHitAux_ne_creator (g : Graviton) (ps : List Particle) (i j : ℕ)
    (h : findHitAux g i ps = some j) : j ≠ g.creator := by
  induction ps generalizing i with
  | nil => simp [findHitAux] at h
  | cons p ps ih =>
    simp only [findHitAux] at h
    split_ifs at h with h1 h2
    · exact ih _ h
    · obtain rfl : i = j := Option.some.inj h
      exact h1
    · exact ih _ h

lemma findHitAux_none_iff (g : Graviton) (ps : List Particle) (i : ℕ) :
    findHitAux g i ps = none ↔
      ∀ k (p : Particle), ps.get? k = some p → i + k ≠ g.creator →
        ¬ collides g p := by
  induction ps generalizing i with
  | nil => simp [findHitAux]
  | cons p ps ih =>
    simp only [findHitAux]
    split_ifs with h1 h2
    · rw [ih (i + 1)]
      constructor
      · intro H k q hk hne
        cases k with
        | zero => exact absurd (by rw [Nat.add_zero]; exact h1) hne
        | succ k => exact H k q (by simpa using hk) (by omega)
      · intro H k q hk hne
        exact H (k + 1) q (by simpa using hk) (by omega)
    · constructor
      · intro H; exact H.elim
      · intro H
        exact absurd h2 (H 0 p rfl (by simpa using h1))
    · rw [ih (i + 1)]
      constructor
      · intro H k q hk hne
        cases k with
        | zero =>
          obtain rfl : p = q := Option.some.inj hk
          exact h2
        | succ k => exact H k q (by simpa using hk) (by omega)
      · intro H k q hk hne
        exact H (k + 1) q (by simpa using hk) (by omega)

lemma findHitAux_some_spec (g : Graviton) (ps : List Particle) (i j : ℕ)
    (h : findHitAux g i ps = some j) :
    i ≤ j ∧ j ≠ g.creator ∧
      (∃ p, ps.get? (j - i) = some p ∧ collides g p) ∧
      ∀ k (p : Particle), ps.get? k = some p → i + k < j →
        i + k ≠ g.creator → ¬ collides g p := by
  induction ps generalizing i with
  | nil => simp [findHitAux] at h
  | cons p ps ih =>
    simp only [findHitAux] at h
    split_ifs at h with h1 h2
    · obtain ⟨hij, hne, ⟨q, hq, hcol⟩, hmin⟩ := ih (i + 1) h
      refine ⟨by omega, hne, ⟨q, ?_, hcol⟩, ?_⟩
      · have hd : j - i = (j - (i + 1)) + 1 := by omega
        rw [hd]
        simpa using hq
      · intro k q' hk hlt hne'
        cases k with
        | zero => exact absurd (by rw [Nat.add_zero]; exact h1) hne'
        | succ k => exact hmin k q' (by simpa using hk) (by omega) (by omega)
    · obtain rfl : i = j := Option.some.inj h
      refine ⟨le_refl i, h1, ⟨p, by simp, h2⟩, ?_⟩
      intro k q hk hlt hne'
      exact absurd hlt (by omega)
    · obtain ⟨hij, hne, ⟨q, hq, hcol⟩, hmin⟩ := ih (i + 1) h
      refine ⟨by omega, hne, ⟨q, ?_, hcol⟩, ?_⟩
      · have hd : j - i = (j - (i + 1)) + 1 := by omega
        rw [hd]
        simpa using hq
      · intro k q' hk hlt hne'
        cases k with
        | zero =>
          obtain rfl : p = q' := Option.some.inj hk
          exact h2
        | succ k => exact hmin k q' (by simpa using hk) (by omega) (by omega)

lemma spawnGravitons_mem (pi gid0 : ℕ) (p : Particle) (nf : ℕ → ℚ × ℚ)
    (g : Graviton) :
    g ∈ spawnGravitons pi gid0 p nf ↔
      ∃ k < GRAVITON_CREATION_COUNT,
        Graviton.init pi p (gid0 + k) p.position
          (p.forces.1 + ((nf k).1 - 1/2) * GRAVITON_FORCE_ADDITION_RANGE,
           p.forces.2 + ((nf k).2 - 1/2) * GRAVITON_FORCE_ADDITION_RANGE)
          = g := by
  simp [spawnGravitons, List.mem_map, List.mem_range]

lemma particlePhase_particles (limits : ℚ × ℚ) (nf : ℕ → ℕ → ℚ × ℚ)
    (ps : List Particle) (pi gid0 : ℕ) :
    (particlePhase limits nf pi gid0 ps).1 =
      ps.map (fun p => p.update limits) := by
  induction ps generalizing pi gid0 with
  | nil => rfl
  | cons p ps ih => simp [particlePhase, ih]

lemma particlePhase_gid_final (limits : ℚ × ℚ) (nf : ℕ → ℕ → ℚ × ℚ)
    (ps : List Particle) (pi gid0 : ℕ) :
    (particlePhase limits nf pi gid0 ps).2.2 =
      gid0 + GRAVITON_CREATION_COUNT * ps.length := by
  induction ps generalizing pi gid0 with
  | nil => simp [particlePhase]
  | cons p ps ih =>
    simp only [particlePhase, ih, List.length_cons]
    ring

lemma particlePhase_spawned_mem (limits : ℚ × ℚ) (nf : ℕ → ℕ → ℚ × ℚ)
    (ps : List Particle) (pi gid0 : ℕ) (g : Graviton)
    (hg : g ∈ (particlePhase limits nf pi gid0 ps).2.1) :
    g.life = GRAVITON_LIFE ∧ g.size = GRAVITON_SIZE ∧
      gid0 ≤ g.gid ∧ g.gid < (particlePhase limits nf pi gid0 ps).2.2 := by
  induction ps generalizing pi gid0 with
  | nil => cases hg
  | cons p ps ih =>
    rw [particlePhase_gid_final]
    simp only [particlePhase, List.mem_append] at hg
    rcases hg with hg | hg
    · obtain ⟨k, hk, hinit⟩ := (spawnGravitons_mem _ _ _ _ _).mp hg
      have hgid : g.gid = gid0 + k := by rw [← hinit]; rfl
      have hlife : g.life = GRAVITON_LIFE := by rw [← hinit]; rfl
      have hsize : g.size = GRAVITON_SIZE := by rw [← hinit]; rfl
      refine ⟨hlife, hsize, by omega, ?_⟩
      simp only [List.length_cons, show GRAVITON_CREATION_COUNT = 30 from rfl] at hk ⊢
      omega
    · obtain ⟨hlife, hsize, hge, hlt⟩ := ih (pi + 1) (gid0 + GRAVITON_CREATION_COUNT) hg
      rw [particlePhase_gid_final] at hlt
      refine ⟨hlife, hsize, ?_, ?_⟩ <;>
        simp only [List.length_cons, show GRAVITON_CREATION_COUNT = 30 from rfl] at hge hlt ⊢ <;>
        omega

/-! ### Frame-level lemmas -/

lemma stepFrame_nextGid (nf : ℕ → ℕ → ℚ × ℚ) (s : SimState) :
    (stepFrame nf s).nextGid =
      s.nextGid + GRAVITON_CREATION_COUNT * s.particles.length := by
  show (particlePhase SCREEN_RESOLUTION nf 0 s.nextGid s.particles).2.2 = _
  rw [particlePhase_gid_final]

lemma stepFrame_gravitons_spec (nf : ℕ → ℕ → ℚ × ℚ) (s : SimState)
    (hWF : WF s) (g' : Graviton) (hg' : g' ∈ (stepFrame nf s).gravitons) :
    g'.gid < (stepFrame nf s).nextGid ∧ 1 ≤ g'.life ∧
      g'.life ≤ GRAVITON_LIFE - 1 ∧
      (g'.gid < s.nextGid →
        ∃ g ∈ s.gravitons, g' = stepGraviton SCREEN_RESOLUTION g) := by
  have h100 : GRAVITON_LIFE = (100 : ℤ) := rfl
  have hmem : g' ∈ (gravitonPhase SCREEN_RESOLUTION
      (particlePhase SCREEN_RESOLUTION nf 0 s.nextGid s.particles).1
      (s.gravitons ++
        (particlePhase SCREEN_RESOLUTION nf 0 s.nextGid s.particles).2.1)).2 := hg'
  obtain ⟨g, hmemIn, hstep, hnexp⟩ := gravitonPhase_mem _ _ _ _ hmem
  have hlife1 : 1 ≤ g'.life := by
    have hne : ¬ (g'.life ≤ 0) := fun hle => hnexp (Or.inl hle)
    omega
  have hgg : g'.gid = g.gid := by rw [hstep]; rfl
  have hgl : g'.life = g.life - 1 := by rw [hstep]; rfl
  rw [stepFrame_nextGid]
  rcases List.mem_append.mp hmemIn with hold | hnew
  · obtain ⟨hgid, hge1, hle100⟩ := hWF g hold
    exact ⟨by omega, hlife1, by omega, fun _ => ⟨g, hold, hstep⟩⟩
  · obtain ⟨hlife100, hsize, hge, hlt⟩ :=
      particlePhase_spawned_mem _ _ _ _ _ _ hnew
    rw [particlePhase_gid_final] at hlt
    refine ⟨by omega, hlife1, by omega, fun hcon => absurd hcon (by omega)⟩

lemma stepFrame_WF (nf : ℕ → ℕ → ℚ × ℚ) (s : SimState) (hWF : WF s) :
    WF (stepFrame nf s) := by
  intro g' hg'
  obtain ⟨h1, h2, h3, _⟩ := stepFrame_gravitons_spec nf s hWF g' hg'
  have h100 : GRAVITON_LIFE = (100 : ℤ) := rfl
  exact ⟨h1, h2, by omega⟩

lemma gone_after_life (i : ℕ) (n : ℕ) :
    ∀ (s : SimState) (nfs : ℕ → ℕ → ℕ → ℚ × ℚ),
      WF s → i < s.nextGid →
      (∀ g ∈ s.gravitons, g.gid = i → g.life ≤ (n : ℤ)) →
      ∀ g' ∈ (stepFrames nfs n s).gravitons, g'.gid ≠ i := by
  induction n with
  | zero =>
    intro s nfs hWF hi hlife g' hg' heq
    have h1 := (hWF g' hg').2.1
    have h2 := hlife g' hg' heq
    omega
  | succ n ih =>
    intro s nfs hWF hi hlife g' hg'
    have hg2 : g' ∈ (stepFrames (fun t => nfs (t + 1)) n
        (stepFrame (nfs 0) s)).gravitons := hg'
    have hstep : ∀ g ∈ (stepFrame (nfs 0) s).gravitons,
        g.gid = i → g.life ≤ (n : ℤ) := by
      intro g hg hgid
      obtain ⟨_, hge1, hle, hfrom⟩ := stepFrame_gravitons_spec (nfs 0) s hWF g hg
      obtain ⟨gin, hgin, hstepg⟩ := hfrom (by rw [hgid]; exact hi)
      have hgidin : gin.gid = i := by
        have he : g.gid = gin.gid := by rw [hstepg]; rfl
        rw [← he]; exact hgid
      have hlin := hlife gin hgin hgidin
      have hgl : g.life = gin.life - 1 := by rw [hstepg]; rfl
      omega
    exact ih (stepFrame (nfs 0) s) (fun t => nfs (t + 1))
      (stepFrame_WF _ _ hWF)
      (by rw [stepFrame_nextGid]; omega) hstep g' hg2

/-- C4: graviton lifecycle.  (1) In the graviton loop each graviton takes
exactly one path: removed by the expiry check (no impulse, no collision
test), removed by its first collision — the impulse
`graviton.forces * GRAVITON_FORCE_APPLY_MULTIPLIER` goes to the first
colliding non-creator particle in creation order, that particle only is
modified, earlier non-creator particles do not collide, and no further
particles are checked — or retained; the three cases are given by mutually
exclusive conditions, so no graviton is removed by both paths.
(2) `stepFrame` preserves well-formedness; (3) after any frame every
active graviton has `life ≤ GRAVITON_LIFE - 1 = 99`; (4) hence every
graviton active or created during a frame (any id allocated by the end of
that frame) has left the active set after the following 99 frames: a
graviton leaves the active set within `GRAVITON_LIFE` frames of its
creation, counting its creation frame. -/
theorem c4_graviton_lifecycle :
    (∀ (res : ℚ × ℚ) (ps : List Particle) (g : Graviton) (gs : List Graviton),
      (expired res (stepGraviton res g) →
        gravitonPhase res ps (g :: gs) = gravitonPhase res ps gs) ∧
      (∀ j, ¬ expired res (stepGraviton res g) →
        findHit (stepGraviton res g) ps = some j →
        gravitonPhase res ps (g :: gs) =
          gravitonPhase res
            (modifyAt (fun p => p.apply_force (impulse (stepGraviton res g)) res)
              j ps) gs ∧
        j ≠ g.creator ∧
        (∃ p, ps.get? j = some p ∧ collides (stepGraviton res g) p) ∧
        (∀ k (p : Particle), ps.get? k = some p → k < j → k ≠ g.creator →
          ¬ collides (stepGraviton res g) p) ∧
        (modifyAt (fun p => p.apply_force (impulse (stepGraviton res g)) res)
            j ps).get? j =
          (ps.get? j).map
            (fun p => p.apply_force (impulse (stepGraviton res g)) res) ∧
        (∀ k, k ≠ j →
          (modifyAt (fun p => p.apply_force (impulse (stepGraviton res g)) res)
              j ps).get? k = ps.get? k)) ∧
      (¬ expired res (stepGraviton res g) →
        findHit (stepGraviton res g) ps = none →
        gravitonPhase res ps (g :: gs) =
          ((gravitonPhase res ps gs).1,
            stepGraviton res g :: (gravitonPhase res ps gs).2))) ∧
    (∀ (nf : ℕ → ℕ → ℚ × ℚ) (s : SimState), WF s → WF (stepFrame nf s)) ∧
    (∀ (nf : ℕ → ℕ → ℚ × ℚ) (s : SimState), WF s →
      ∀ g' ∈ (stepFrame nf s).gravitons, g'.life ≤ GRAVITON_LIFE - 1) ∧
    (∀ (s : SimState) (nf : ℕ → ℕ → ℚ × ℚ) (nfs : ℕ → ℕ → ℕ → ℚ × ℚ),
      WF s → ∀ i < (stepFrame nf s).nextGid,
        ∀ g' ∈ (stepFrames nfs 99 (stepFrame nf s)).gravitons,
          g'.gid ≠ i) := by
  refine ⟨?_, ?_, ?_, ?_⟩
  · intro res ps g gs
    refine ⟨fun he => gravitonPhase_cons_expired res ps g gs he, ?_,
      fun h1 h2 => gravitonPhase_cons_retained res ps g gs h1 h2⟩
    intro j h1 h2
    obtain ⟨hij, hne, ⟨p, hp, hcol⟩, hmin⟩ := findHitAux_some_spec _ ps 0 j h2
    refine ⟨gravitonPhase_cons_hit res ps g gs j h1 h2, hne,
      ⟨p, by simpa using hp, hcol⟩, ?_, ?_, ?_⟩
    · intro k q hk hlt hkne
      have hc : (stepGraviton res g).creator = g.creator := rfl
      exact hmin k q hk (by omega) (by omega)
    · rw [modifyAt_get?]
      simp
    · intro k hk
      rw [modifyAt_get?, if_neg hk]
  · exact fun nf s h => stepFrame_WF nf s h
  · intro nf s hWF g' hg'
    exact (stepFrame_gravitons_spec nf s hWF g' hg').2.2.1
  · intro s nf nfs hWF i hi g' hg'
    refine gone_after_life i 99 (stepFrame nf s) nfs
      (stepFrame_WF nf s hWF) hi ?_ g' hg'
    intro g hg hgid
    have hle := (stepFrame_gravitons_spec nf s hWF g hg).2.2.1
    have h100 : GRAVITON_LIFE = (100 : ℤ) := rfl
    omega

/-- Witness for C4: an expired graviton (life hits 0) is dropped by the
loop without touching the particles, and a frame from the well-formed
empty state yields a well-formed state. -/
theorem c4_graviton_lifecycle_witness :
    gravitonPhase SCREEN_RESOLUTION []
        [Graviton.mk 0 0 (350, 350) (0, 0) (0, 0, 0) 1 1] =
      gravitonPhase SCREEN_RESOLUTION [] [] ∧
    WF (stepFrame (fun _ _ => (0, 0)) (SimState.mk [] [] 0)) := by
  constructor
  · exact (c4_graviton_lifecycle.1 SCREEN_RESOLUTION []
      (Graviton.mk 0 0 (350, 350) (0, 0) (0, 0, 0) 1 1) []).1
      (Or.inl (by norm_num [stepGraviton, Graviton.update]))
  · exact c4_graviton_lifecycle.2.1 (fun _ _ => (0, 0)) (SimState.mk [] [] 0)
      (fun g hg => absurd hg (List.not_mem_nil g))

/-- C5: in a frame's graviton phase, a graviton is removed with its
collision check skipped if and only if, after its update and life
decrement, `life ≤ 0` or its position is strictly outside `[0, res]` on
either axis (a position exactly on the boundary is kept); on that path the
particle list is untouched.  Concretely, a graviton at `[0, 0]` with
forces `[-1, -1]` ends its update at `[-1, -1]` and is removed that frame
before any collision check. -/
theorem c5_expiry_semantics :
    (∀ (res : ℚ × ℚ) (ps : List Particle) (g : Graviton),
      gravOutcome res ps g = GOutcome.expiredOut ↔
        ((stepGraviton res g).life ≤ 0 ∨
          (stepGraviton res g).position.1 < 0 ∨
          (stepGraviton res g).position.1 > res.1 ∨
          (stepGraviton res g).position.2 < 0 ∨
          (stepGraviton res g).position.2 > res.2)) ∧
    (∀ (res : ℚ × ℚ) (ps : List Particle) (g : Graviton) (gs : List Graviton),
      expired res (stepGraviton res g) →
        gravitonPhase res ps (g :: gs) = gravitonPhase res ps gs) ∧
    (∀ (ps : List Particle) (gs : List Graviton) (cr gid : ℕ)
        (c : ℚ × ℚ × ℚ) (sz : ℚ),
      (stepGraviton SCREEN_RESOLUTION
          (Graviton.mk cr gid (0, 0) (-1, -1) c sz GRAVITON_LIFE)).position =
        (-1, -1) ∧
      gravOutcome SCREEN_RESOLUTION ps
          (Graviton.mk cr gid (0, 0) (-1, -1) c sz GRAVITON_LIFE) =
        GOutcome.expiredOut ∧
      gravitonPhase SCREEN_RESOLUTION ps
          (Graviton.mk cr gid (0, 0) (-1, -1) c sz GRAVITON_LIFE :: gs) =
        gravitonPhase SCREEN_RESOLUTION ps gs) := by
  refine ⟨?_, fun res ps g gs he => gravitonPhase_cons_expired res ps g gs he, ?_⟩
  · intro res ps g
    simp only [gravOutcome]
    split_ifs with he
    · exact iff_of_true rfl he
    · cases hf : findHit (stepGraviton res g) ps with
      | some j =>
        simp only [hf]
        exact iff_of_false (by simp) he
      | none =>
        simp only [hf]
        exact iff_of_false (by simp) he
  · intro ps gs cr gid c sz
    have hpos : (stepGraviton SCREEN_RESOLUTION
        (Graviton.mk cr gid (0, 0) (-1, -1) c sz GRAVITON_LIFE)).position =
        (-1, -1) := by
      show ((0 : ℚ) + -1, (0 : ℚ) + -1) = ((-1 : ℚ), (-1 : ℚ))
      norm_num
    have hexp : expired SCREEN_RESOLUTION (stepGraviton SCREEN_RESOLUTION
        (Graviton.mk cr gid (0, 0) (-1, -1) c sz GRAVITON_LIFE)) := by
      refine Or.inr (Or.inl ?_)
      rw [hpos]
      norm_num
    refine ⟨hpos, ?_, gravitonPhase_cons_expired _ _ _ _ hexp⟩
    simp only [gravOutcome]
    rw [if_pos hexp]

/-- Witness for C5 at a concrete graviton and empty particle list. -/
theorem c5_expiry_semantics_witness :
    (stepGraviton SCREEN_RESOLUTION
        (Graviton.mk 0 0 (0, 0) (-1, -1) (0, 0, 0) 1 GRAVITON_LIFE)).position =
      (-1, -1) ∧
    gravOutcome SCREEN_RESOLUTION []
        (Graviton.mk 0 0 (0, 0) (-1, -1) (0, 0, 0) 1 GRAVITON_LIFE) =
      GOutcome.expiredOut ∧
    gravitonPhase SCREEN_RESOLUTION []
        [Graviton.mk 0 0 (0, 0) (-1, -1) (0, 0, 0) 1 GRAVITON_LIFE] =
      gravitonPhase SCREEN_RESOLUTION [] [] :=
  c5_expiry_semantics.2.2 [] [] 0 0 (0, 0, 0) 1

/-- C6: a graviton never collides with its own creator.  The collision
loop skips the creator by identity (index), so a hit index is never the
creator's; and when no particle other than the creator is within collision
distance — whatever the creator's relative position, including full
overlap — the search finds nothing, so the creator never receives the
impulse and the graviton is never removed by contact with its creator. -/
theorem c6_no_creator_collision :
    (∀ (res : ℚ × ℚ) (ps : List Particle) (g : Graviton) (j : ℕ),
      gravOutcome res ps g = GOutcome.hit j → j ≠ g.creator) ∧
    (∀ (res : ℚ × ℚ) (ps : List Particle) (g : Graviton),
      (∀ k (p : Particle), ps.get? k = some p → k ≠ g.creator →
        ¬ collides (stepGraviton res g) p) →
      findHit (stepGraviton res g) ps = none ∧
      ∀ j, gravOutcome res ps g ≠ GOutcome.hit j) := by
  constructor
  · intro res ps g j h
    simp only [gravOutcome] at h
    split_ifs at h with he
    cases hf : findHit (stepGraviton res g) ps with
    | some j' =>
      simp only [hf] at h
      obtain rfl : j' = j := by
        cases h
        rfl
      exact findHitAux_ne_creator (stepGraviton res g) ps 0 j' hf
    | none =>
      simp only [hf] at h
      exact GOutcome.noConfusion h
  · intro res ps g H
    have hf : findHit (stepGraviton res g) ps = none := by
      show findHitAux (stepGraviton res g) 0 ps = none
      rw [findHitAux_none_iff]
      intro k p hk hne
      have hc : (stepGraviton res g).creator = g.creator := rfl
      exact H k p hk (by omega)
    refine ⟨hf, ?_⟩
    intro j h
    simp only [gravOutcome] at h
    split_ifs at h with he
    simp only [hf] at h
    exact GOutcome.noConfusion h

/-- Witness for C6: a graviton exactly on top of its creator (and nobody
else around) collides with nothing. -/
theorem c6_no_creator_collision_witness :
    findHit (stepGraviton SCREEN_RESOLUTION
        (Graviton.mk 0 0 (350, 350) (0, 0) (0, 0, 0) 1 100))
      [Particle.mk (350, 350) (0, 0) (0, 0, 0) 10] = none := by
  refine (c6_no_creator_collision.2 SCREEN_RESOLUTION _ _ ?_).1
  intro k p hk hkne
  cases k with
  | zero => exact absurd rfl hkne
  | succ k => simp at hk

lemma updateAxis_rest (pos : ℚ) (h1 : 10 ≤ pos) (h2 : pos ≤ 690) :
    updateAxis pos 0 10 700 = (pos, 0) := by
  simp only [updateAxis]
  have hfc : max (min (0 : ℚ) FORCE_LIMIT) (-FORCE_LIMIT) = 0 := by
    norm_num [FORCE_LIMIT]
  rw [hfc]
  rw [if_neg]
  · norm_num
  · push_neg
    constructor <;> linarith

/-- C7: a single particle at rest (`forces = [0, 0]`, inside the
700×700 arena) spawns exactly `GRAVITON_CREATION_COUNT = 30` gravitons in
one frame's particle phase; its update leaves position and forces
unchanged, and every spawned graviton is created with
`life = GRAVITON_LIFE = 100`, position a copy of the particle's
post-update position, and each force component within the particle's
post-update force component plus or minus
`GRAVITON_FORCE_ADDITION_RANGE / 2 = 5` (the noise draws being
`random.random()` values in `[0, 1)`). -/
theorem c7_single_particle_frame_spawn (p : Particle) (nf : ℕ → ℕ → ℚ × ℚ)
    (hf : p.forces = (0, 0)) (hsize : p.size = PARTICLE_SIZE)
    (hp : inBounds p)
    (hr : ∀ i k, 0 ≤ (nf i k).1 ∧ (nf i k).1 < 1 ∧
      0 ≤ (nf i k).2 ∧ (nf i k).2 < 1) :
    (particlePhase SCREEN_RESOLUTION nf 0 0 [p]).1 =
      [p.update SCREEN_RESOLUTION] ∧
    (p.update SCREEN_RESOLUTION).position = p.position ∧
    (p.update SCREEN_RESOLUTION).forces = (0, 0) ∧
    (particlePhase SCREEN_RESOLUTION nf 0 0 [p]).2.1.length =
      GRAVITON_CREATION_COUNT ∧
    ∀ g ∈ (particlePhase SCREEN_RESOLUTION nf 0 0 [p]).2.1,
      g.life = GRAVITON_LIFE ∧
      g.position = (p.update SCREEN_RESOLUTION).position ∧
      |g.forces.1 - (p.update SCREEN_RESOLUTION).forces.1| ≤
        GRAVITON_FORCE_ADDITION_RANGE / 2 ∧
      |g.forces.2 - (p.update SCREEN_RESOLUTION).forces.2| ≤
        GRAVITON_FORCE_ADDITION_RANGE / 2 := by
  have hf1 : p.forces.1 = 0 := by rw [hf]
  have hf2 : p.forces.2 = 0 := by rw [hf]
  have hs : p.size = (10 : ℚ) := hsize
  obtain ⟨b1, b2, b3, b4⟩ := (inBounds_iff p).mp hp
  have e1 : updateAxis p.position.1 p.forces.1 p.size SCREEN_RESOLUTION.1 =
      (p.position.1, 0) := by
    rw [hf1, hs]
    exact updateAxis_rest _ b1 b2
  have e2 : updateAxis p.position.2 p.forces.2 p.size SCREEN_RESOLUTION.2 =
      (p.position.2, 0) := by
    rw [hf2, hs]
    exact updateAxis_rest _ b3 b4
  have hpos : (p.update SCREEN_RESOLUTION).position = p.position := by
    show ((updateAxis p.position.1 p.forces.1 p.size SCREEN_RESOLUTION.1).1,
        (updateAxis p.position.2 p.forces.2 p.size SCREEN_RESOLUTION.2).1) =
      p.position
    rw [e1, e2]
  have hforces : (p.update SCREEN_RESOLUTION).forces = (0, 0) := by
    show ((updateAxis p.position.1 p.forces.1 p.size SCREEN_RESOLUTION.1).2,
        (updateAxis p.position.2 p.forces.2 p.size SCREEN_RESOLUTION.2).2) =
      ((0 : ℚ), (0 : ℚ))
    rw [e1, e2]
  refine ⟨by simp [particlePhase], hpos, hforces, ?_, ?_⟩
  · simp [particlePhase, spawnGravitons]
  · intro g hg
    have hg' : g ∈ spawnGravitons 0 0 (p.update SCREEN_RESOLUTION) (nf 0) := by
      simpa [particlePhase] using hg
    obtain ⟨k, hk, hinit⟩ := (spawnGravitons_mem _ _ _ _ _).mp hg'
    refine ⟨by rw [← hinit]; rfl, by rw [← hinit]; rfl, ?_, ?_⟩
    · have hfo : g.forces.1 =
          (p.update SCREEN_RESOLUTION).forces.1 +
            ((nf 0 k).1 - 1/2) * GRAVITON_FORCE_ADDITION_RANGE := by
        rw [← hinit]; rfl
      rw [hfo]
      obtain ⟨r1, r2, _, _⟩ := hr 0 k
      have hsimp : (p.update SCREEN_RESOLUTION).forces.1 +
          ((nf 0 k).1 - 1/2) * GRAVITON_FORCE_ADDITION_RANGE -
          (p.update SCREEN_RESOLUTION).forces.1 =
          ((nf 0 k).1 - 1/2) * 10 := by
        rw [show GRAVITON_FORCE_ADDITION_RANGE = (10 : ℚ) from rfl]
        ring
      rw [hsimp,
        show GRAVITON_FORCE_ADDITION_RANGE / 2 = (5 : ℚ) from by
          norm_num [GRAVITON_FORCE_ADDITION_RANGE]]
      rw [abs_le]
      constructor <;> linarith
    · have hfo : g.forces.2 =
          (p.update SCREEN_RESOLUTION).forces.2 +
            ((nf 0 k).2 - 1/2) * GRAVITON_FORCE_ADDITION_RANGE := by
        rw [← hinit]; rfl
      rw [hfo]
      obtain ⟨_, _, r1, r2⟩ := hr 0 k
      have hsimp : (p.update SCREEN_RESOLUTION).forces.2 +
          ((nf 0 k).2 - 1/2) * GRAVITON_FORCE_ADDITION_RANGE -
          (p.update SCREEN_RESOLUTION).forces.2 =
          ((nf 0 k).2 - 1/2) * 10 := by
        rw [show GRAVITON_FORCE_ADDITION_RANGE = (10 : ℚ) from rfl]
        ring
      rw [hsimp,
        show GRAVITON_FORCE_ADDITION_RANGE / 2 = (5 : ℚ) from by
          norm_num [GRAVITON_FORCE_ADDITION_RANGE]]
      rw [abs_le]
      constructor <;> linarith

/-- Witness for C7 at the sample particle and zero noise. -/
theorem c7_single_particle_frame_spawn_witness :
    (particlePhase SCREEN_RESOLUTION sampleNoise 0 0 [sampleParticle]).2.1.length =
      GRAVITON_CREATION_COUNT ∧
    (sampleParticle.update SCREEN_RESOLUTION).forces = (0, 0) := by
  have h := c7_single_particle_frame_spawn sampleParticle sampleNoise
    rfl rfl (by rw [inBounds_iff]; norm_num [sampleParticle])
    (fun i k => by norm_num [sampleNoise])
  exact ⟨h.2.2.2.1, h.2.2.1⟩

/-- C10: gravitons spawned during a frame's particle phase participate in
that same frame's graviton phase, because the graviton list is snapshotted
only after all spawning is done: the frame's graviton phase runs on
`old gravitons ++ newly spawned`, every spawned graviton (created with
`life = GRAVITON_LIFE`) is in that snapshot, is already subject to the
expiry check this frame, and — if neither culled nor hit — survives the
frame moved by its forces with `life = GRAVITON_LIFE - 1 = 99`. -/
theorem c10_spawned_processed_same_frame (s : SimState)
    (nf : ℕ → ℕ → ℚ × ℚ) :
    (stepFrame nf s).gravitons =
      (gravitonPhase SCREEN_RESOLUTION
        (particlePhase SCREEN_RESOLUTION nf 0 s.nextGid s.particles).1
        (s.gravitons ++
          (particlePhase SCREEN_RESOLUTION nf 0 s.nextGid s.particles).2.1)).2 ∧
    ∀ g ∈ (particlePhase SCREEN_RESOLUTION nf 0 s.nextGid s.particles).2.1,
      g.life = GRAVITON_LIFE ∧
      g ∈ s.gravitons ++
        (particlePhase SCREEN_RESOLUTION nf 0 s.nextGid s.particles).2.1 ∧
      (expired SCREEN_RESOLUTION (stepGraviton SCREEN_RESOLUTION g) →
        gravOutcome SCREEN_RESOLUTION
          (particlePhase SCREEN_RESOLUTION nf 0 s.nextGid s.particles).1 g =
          GOutcome.expiredOut) ∧
      (¬ expired SCREEN_RESOLUTION (stepGraviton SCREEN_RESOLUTION g) →
        findHit (stepGraviton SCREEN_RESOLUTION g)
          (particlePhase SCREEN_RESOLUTION nf 0 s.nextGid s.particles).1 =
          none →
        stepGraviton SCREEN_RESOLUTION g ∈ (stepFrame nf s).gravitons ∧
        (stepGraviton SCREEN_RESOLUTION g).life = GRAVITON_LIFE - 1 ∧
        (stepGraviton SCREEN_RESOLUTION g).position =
          (g.position.1 + g.forces.1, g.position.2 + g.forces.2)) := by
  refine ⟨rfl, ?_⟩
  intro g hg
  have hlife := (particlePhase_spawned_mem _ _ _ _ _ _ hg).1
  refine ⟨hlife, List.mem_append_right _ hg, ?_, ?_⟩
  · intro he
    simp only [gravOutcome]
    rw [if_pos he]
  · intro h1 h2
    refine ⟨?_, ?_, rfl⟩
    · exact gravitonPhase_retained_mem SCREEN_RESOLUTION _ _ g
        (List.mem_append_right _ hg) h1 h2
    · rw [stepGraviton_life, hlife]

/-- Witness for C10: the first graviton spawned from the sample particle
is created with full life and is still active, aged by one, at the end of
its creation frame. -/
theorem c10_spawned_processed_same_frame_witness :
    sampleSpawned.life = GRAVITON_LIFE ∧
    stepGraviton SCREEN_RESOLUTION sampleSpawned ∈
      (stepFrame sampleNoise sampleState).gravitons ∧
    (stepGraviton SCREEN_RESOLUTION sampleSpawned).life =
      GRAVITON_LIFE - 1 := by
  have h350 : updateAxis (350 : ℚ) 0 10 700 = (350, 0) :=
    updateAxis_rest 350 (by norm_num) (by norm_num)
  have hu : sampleParticle.update SCREEN_RESOLUTION = sampleParticle := by
    show Particle.mk
        ((updateAxis (350 : ℚ) 0 10 700).1, (updateAxis (350 : ℚ) 0 10 700).1)
        ((updateAxis (350 : ℚ) 0 10 700).2, (updateAxis (350 : ℚ) 0 10 700).2)
        (0, 0, 0) 10 = sampleParticle
    rw [h350]
    rfl
  have hps : sampleSpawned.position = ((350 : ℚ), 350) := by
    show (sampleParticle.update SCREEN_RESOLUTION).position = ((350 : ℚ), 350)
    rw [hu]
    rfl
  have hfs : sampleSpawned.forces = ((0 : ℚ), 0) := by
    show ((sampleParticle.update SCREEN_RESOLUTION).forces.1 +
        ((sampleNoise 0 0).1 - 1/2) * GRAVITON_FORCE_ADDITION_RANGE,
      (sampleParticle.update SCREEN_RESOLUTION).forces.2 +
        ((sampleNoise 0 0).2 - 1/2) * GRAVITON_FORCE_ADDITION_RANGE) =
      ((0 : ℚ), 0)
    rw [hu]
    norm_num [sampleParticle, sampleNoise, GRAVITON_FORCE_ADDITION_RANGE]
  have hsp1 : (stepGraviton SCREEN_RESOLUTION sampleSpawned).position =
      ((350 : ℚ), 350) := by
    rw [stepGraviton_position, hps, hfs]
    norm_num
  have hsl : (stepGraviton SCREEN_RESOLUTION sampleSpawned).life = 99 := by
    rw [stepGraviton_life]
    decide
  have hnexp : ¬ expired SCREEN_RESOLUTION
      (stepGraviton SCREEN_RESOLUTION sampleSpawned) := by
    intro hexp
    rcases hexp with h | h | h | h | h
    · rw [hsl] at h
      norm_num at h
    · rw [hsp1] at h
      norm_num [SCREEN_RESOLUTION] at h
    · rw [hsp1] at h
      norm_num [SCREEN_RESOLUTION] at h
    · rw [hsp1] at h
      norm_num [SCREEN_RESOLUTION] at h
    · rw [hsp1] at h
      norm_num [SCREEN_RESOLUTION] at h
  have hfind : findHit (stepGraviton SCREEN_RESOLUTION sampleSpawned)
      (particlePhase SCREEN_RESOLUTION sampleNoise 0 0 [sampleParticle]).1 =
      none := by
    rw [particlePhase_particles]
    simp [findHit, findHitAux, sampleSpawned, Graviton.init, stepGraviton,
      Graviton.update]
  have hmem : sampleSpawned ∈
      (particlePhase SCREEN_RESOLUTION sampleNoise 0 0 [sampleParticle]).2.1 := by
    have hsp : sampleSpawned ∈ spawnGravitons 0 0
        (sampleParticle.update SCREEN_RESOLUTION) (sampleNoise 0) :=
      (spawnGravitons_mem _ _ _ _ _).mpr
        ⟨0, by norm_num [GRAVITON_CREATION_COUNT], rfl⟩
    simpa [particlePhase] using hsp
  have h := (c10_spawned_processed_same_frame sampleState sampleNoise).2
    sampleSpawned hmem
  have hretained := h.2.2.2 hnexp hfind
  exact ⟨h.1, hretained.1, hretained.2.1⟩

/-- C9: `Graviton.__init__` stores independent copies of the position and
force vectors it is given: in the store model, the graviton's two cells
are freshly allocated (distinct from the creator's cells), hold the same
values at creation, and any later overwrite of the creator's cells — in
particular the in-place mutations done by `Particle.update` and
`Particle.apply_force` on the creator's `position` and `forces` lists —
leaves the graviton's stored vectors unchanged. -/
theorem c9_graviton_init_copies (s : Store) (posRef forcesRef : ℕ)
    (hp : posRef < s.next) (hf : forcesRef < s.next) :
    (gravitonInitRefs s posRef forcesRef).1.1 ≠ posRef ∧
    (gravitonInitRefs s posRef forcesRef).1.2 ≠ forcesRef ∧
    (gravitonInitRefs s posRef forcesRef).2.read
        (gravitonInitRefs s posRef forcesRef).1.1 = s.read posRef ∧
    (gravitonInitRefs s posRef forcesRef).2.read
        (gravitonInitRefs s posRef forcesRef).1.2 = s.read forcesRef ∧
    ∀ v w : ℚ × ℚ,
      (((gravitonInitRefs s posRef forcesRef).2.write posRef v).write
            forcesRef w).read (gravitonInitRefs s posRef forcesRef).1.1 =
        s.read posRef ∧
      (((gravitonInitRefs s posRef forcesRef).2.write posRef v).write
            forcesRef w).read (gravitonInitRefs s posRef forcesRef).1.2 =
        s.read forcesRef := by
  have e1 : s.next ≠ s.next + 1 := by omega
  have e3 : forcesRef ≠ s.next := by omega
  have e6 : s.next ≠ posRef := by omega
  have e7 : s.next ≠ forcesRef := by omega
  have e8 : s.next + 1 ≠ posRef := by omega
  have e9 : s.next + 1 ≠ forcesRef := by omega
  refine ⟨e6, e9, ?_, ?_, ?_⟩
  · simp [gravitonInitRefs, Store.alloc, Store.read, Store.write, e1]
  · simp [gravitonInitRefs, Store.alloc, Store.read, Store.write, e3]
  · intro v w
    constructor
    · simp [gravitonInitRefs, Store.alloc, Store.read, Store.write,
        e1, e6, e7]
    · simp [gravitonInitRefs, Store.alloc, Store.read, Store.write,
        e3, e8, e9]

/-- Witness for C9 at a concrete two-cell store. -/
theorem c9_graviton_init_copies_witness :
    (gravitonInitRefs (Store.mk (fun _ => (1, 2)) 2) 0 1).1.1 ≠ 0 ∧
    (((gravitonInitRefs (Store.mk (fun _ => (1, 2)) 2) 0 1).2.write 0
          (9, 9)).write 1 (8, 8)).read
        (gravitonInitRefs (Store.mk (fun _ => (1, 2)) 2) 0 1).1.1 =
      (Store.mk (fun _ => (1, 2)) 2).read 0 := by
  have h := c9_graviton_init_copies (Store.mk (fun _ => (1, 2)) 2) 0 1
    (by decide) (by decide)
  exact ⟨h.1, (h.2.2.2.2 (9, 9) (8, 8)).1⟩
